import Mathlib

/-!
Verification of the video-exporter stream probe: a shallow embedding of the
exporter's scoring projection (exporter.go `updateMetrics`), the stream
sampler commit logic (stream.go `Check` / `MarkFailed`), the retry wrapper
and timeout derivation (scheduler.go `checkWithRetry`), and stream
registration (scheduler.go `AddStream`, main.go).  Go `float64` values are
modelled as exact rationals, `int64` counters as naturals or integers.
-/

namespace VideoExporter

/-- Per-stream metric snapshot, the mutable fields of `StreamChecker`
(stream.go).  Counters are naturals (they are only ever set from
non-negative loop counts or zeroed); float fields are rationals; wall-clock
stamps are rationals (seconds). -/
structure StreamState where
  totalPackets : Nat
  videoPackets : Nat
  audioPackets : Nat
  keyframes : Nat
  currentBitrate : ℚ
  avgBitrate : ℚ
  bitrateHistory : List ℚ
  framerate : ℚ
  codec : String
  response : ℤ
  gopSize : Nat
  width : Nat
  height : Nat
  quality : String
  playable : Bool
  bitrateStability : String
  healthy : Bool
  lastCheckTime : ℚ
  consecutiveFails : Nat
  ttfbMs : ℚ
  readThroughputBps : ℚ
  readStallCount : Nat
  readStallMaxMs : ℚ
  readStallTotalMs : ℚ
  readStallRatio : ℚ
  deriving Repr, DecidableEq

/-- `NewStreamChecker`: Go zero values for every field except the explicit
initialisers (`healthy=false`, `playable=false`, `quality="unknown"`,
empty bitrate history). -/
def initState : StreamState where
  totalPackets := 0
  videoPackets := 0
  audioPackets := 0
  keyframes := 0
  currentBitrate := 0
  avgBitrate := 0
  bitrateHistory := []
  framerate := 0
  codec := ""
  response := 0
  gopSize := 0
  width := 0
  height := 0
  quality := "unknown"
  playable := false
  bitrateStability := ""
  healthy := false
  lastCheckTime := 0
  consecutiveFails := 0
  ttfbMs := 0
  readThroughputBps := 0
  readStallCount := 0
  readStallMaxMs := 0
  readStallTotalMs := 0
  readStallRatio := 0

/-- `MarkFailed` (stream.go): zero the snapshot, keep `bitrateHistory`,
bump the consecutive-failure counter, stamp the check time `t`. -/
def markFailed (t : ℚ) (s : StreamState) : StreamState :=
  { s with
    consecutiveFails := s.consecutiveFails + 1
    healthy := false
    playable := false
    totalPackets := 0
    videoPackets := 0
    audioPackets := 0
    keyframes := 0
    currentBitrate := 0
    avgBitrate := 0
    framerate := 0
    codec := ""
    response := 0
    gopSize := 0
    width := 0
    height := 0
    quality := "poor"
    bitrateStability := "unstable"
    lastCheckTime := t
    ttfbMs := 0
    readThroughputBps := 0
    readStallCount := 0
    readStallMaxMs := 0
    readStallTotalMs := 0
    readStallRatio := 0 }

/-! ## Exporter scoring (exporter.go `updateMetrics`) -/

/-- Quality switch in `updateMetrics`: "good" → 2, "fair" → 1, anything
else (including "poor" and "unknown") keeps the 0.0 initialiser. -/
def qualityScoreOf (q : String) : ℚ :=
  if q = "good" then 2 else if q = "fair" then 1 else 0

/-- Stability switch in `updateMetrics`: "stable" → 2, "moderate" → 1,
anything else keeps the 0.0 initialiser. -/
def stabilityScoreOf (st : String) : ℚ :=
  if st = "stable" then 2 else if st = "moderate" then 1 else 0

/-- Overall-score computation in `updateMetrics`: hard stall override when
`read_stall_ratio > 0.5`, otherwise the explicit (quality, stability)
switch with default 0. -/
def overallScoreOf (stallRatio qs ss : ℚ) : ℚ :=
  if stallRatio > 1/2 then 0
  else if qs = 2 ∧ ss = 2 then 2
  else if qs = 2 ∧ ss = 1 then 1
  else if qs = 2 ∧ ss = 0 then 0
  else if qs = 1 ∧ ss = 2 then 1
  else if qs = 1 ∧ ss = 1 then 1
  else if qs = 1 ∧ ss = 0 then 0
  else 0

/-- The overall score the exporter writes for a snapshot: compose the two
label-to-integer projections with the overall switch, reading the fields
the Go code reads from `StreamMetrics` (which `GetMetrics` copies verbatim
from the checker state). -/
def exportedOverallScore (s : StreamState) : ℚ :=
  overallScoreOf s.readStallRatio (qualityScoreOf s.quality) (stabilityScoreOf s.bitrateStability)

/-- Modelled from the spec's words (claim C1): the table mapping of the
integer quality and stability scores, with quality score 0 giving 0 for
any stability. -/
def claimOverallTable (qs ss : ℚ) : ℚ :=
  if qs = 2 ∧ ss = 2 then 2
  else if qs = 2 ∧ ss = 1 then 1
  else if qs = 2 ∧ ss = 0 then 0
  else if qs = 1 ∧ ss = 2 then 1
  else if qs = 1 ∧ ss = 1 then 1
  else if qs = 1 ∧ ss = 0 then 0
  else 0

/-! ## Stream sampler (stream.go `Check`) -/

/-- joy5 packet types relevant to the sampling loop's switch. -/
inductive PktType
  | metadata
  | h264
  | aac
  | other
  deriving Repr, DecidableEq

/-- One packet produced by the FLV demultiplexer: its type, its decode
timestamp `pkt.Time` (nanoseconds, an `int64` duration), and the keyframe
flag. -/
structure Packet where
  type : PktType
  time : ℤ
  isKeyFrame : Bool
  deriving Repr, DecidableEq

/-- Accumulator of the sampling loop's local counters, plus the `sc.codec`
field which the loop mutates in place. -/
structure LoopAcc where
  packetCount : Nat
  videoCount : Nat
  audioCount : Nat
  keyframeCount : Nat
  hasVideo : Bool
  hasMetadata : Bool
  firstSeen : Bool
  firstDTS : ℤ
  lastDTS : ℤ
  codec : String
  deriving Repr, DecidableEq

/-- Loop body of `Check` for one packet read from the demultiplexer. -/
def stepPacket (a : LoopAcc) (p : Packet) : LoopAcc :=
  let a := { a with packetCount := a.packetCount + 1 }
  let a := if p.type = PktType.metadata ∧ ¬a.hasMetadata
           then { a with hasMetadata := true } else a
  match p.type with
  | PktType.h264 =>
      let a := { a with videoCount := a.videoCount + 1, hasVideo := true }
      let a := if p.isKeyFrame then { a with keyframeCount := a.keyframeCount + 1 } else a
      let a := if ¬a.firstSeen
               then { a with firstSeen := true, firstDTS := p.time, lastDTS := p.time }
               else { a with lastDTS := p.time }
      if a.codec = "" then { a with codec := "H264" } else a
  | PktType.aac => { a with audioCount := a.audioCount + 1 }
  | _ => a

/-- The sampling loop over the packets the demultiplexer actually
delivered before the loop terminated (the time-based break conditions
select this list; we take it as an input of the run).  `codec0` is the
checker's codec field when the loop starts. -/
def runLoop (codec0 : String) (pkts : List Packet) : LoopAcc :=
  pkts.foldl stepPacket
    { packetCount := 0, videoCount := 0, audioCount := 0, keyframeCount := 0
      hasVideo := false, hasMetadata := false, firstSeen := false
      firstDTS := 0, lastDTS := 0, codec := codec0 }

/-- The wall-clock and byte-level observations of one `Check` call that
reaches the metric derivation: the response-header latency, the stall
reader's counters, the optional first-read stamp (ms since request
start), the elapsed seconds since the start of `Check` (`startTime`)
measured at derivation time, the elapsed seconds since the start of the
sampling loop (`sampleStartTime`) at the same instant — the code never
reads it, it is carried for comparison with the spec — and the commit
wall-clock. -/
structure CheckObs where
  responseMs : ℤ
  totalBytes : ℤ
  stallCount : Nat
  maxStallSec : ℚ
  totalStallSec : ℚ
  firstReadMs : Option ℚ
  durationSec : ℚ
  sampleElapsedSec : ℚ
  checkTime : ℚ
  deriving Repr, DecidableEq

/-- How far one `Check` attempt got and what it observed.  `readErr pre`
is a mid-stream `ReadPacket` failure after the packets `pre` were
processed; `done` is a loop exit through the break conditions or EOF. -/
inductive BodyRun
  | readErr (pre : List Packet)
  | done (pkts : List Packet) (obs : CheckObs)
  deriving Repr, DecidableEq

/-- Outcome of the HTTP phase of one `Check` attempt. -/
inductive HttpResult
  | reqErr
  | doErr
  | ok (status : ℤ) (body : BodyRun)
  deriving Repr, DecidableEq

/-- The error returns of `Check`. -/
inductive CheckErr
  | reqFailed
  | connFailed
  | httpStatus (code : ℤ)
  | readFailed
  | noVideo
  deriving Repr, DecidableEq

/-- GOP size computed after the sampling loop, from the keyframe and
video counts (integer division, as in Go). -/
def gopOf (acc : LoopAcc) : Nat :=
  if acc.keyframeCount > 1 then acc.videoCount / acc.keyframeCount
  else if acc.keyframeCount = 1 then acc.videoCount
  else 0

/-- Read throughput: `totalBytes*8 / duration.Seconds()` when that
duration is positive, else 0; `duration` is measured from the start of
`Check` (`startTime`), before the HTTP request. -/
def throughputOf (obs : CheckObs) : ℚ :=
  if obs.durationSec > 0 then ((obs.totalBytes * 8 : ℤ) : ℚ) / obs.durationSec else 0

/-- Stall ratio: `totalStall / duration.Seconds()` capped at 1 when the
duration is positive, else 0; same whole-`Check` duration as the
throughput. -/
def stallRatioOf (obs : CheckObs) : ℚ :=
  if obs.durationSec > 0 then min (obs.totalStallSec / obs.durationSec) 1 else 0

/-- The DTS-window validity test guarding the framerate/bitrate branch:
a first video packet was recorded and the last DTS is strictly past the
first. -/
def dtsValid (acc : LoopAcc) : Prop :=
  acc.firstSeen = true ∧ acc.firstDTS < acc.lastDTS

instance (acc : LoopAcc) : Decidable (dtsValid acc) := by
  unfold dtsValid; infer_instance

/-- The DTS window length in seconds (nanoseconds over 1e9). -/
def dtsElapsedOf (acc : LoopAcc) : ℚ :=
  ((acc.lastDTS - acc.firstDTS : ℤ) : ℚ) / 1000000000

/-- Committed framerate: assigned only inside the valid-DTS branch;
otherwise the field keeps its previous value `fr0`. -/
def commitFramerate (fr0 : ℚ) (acc : LoopAcc) : ℚ :=
  if dtsValid acc then
    if dtsElapsedOf acc > 0 then (acc.videoCount : ℚ) / dtsElapsedOf acc else fr0
  else fr0

/-- Committed current bitrate: DTS-based when the window is valid, else
the wall-clock fallback over the whole-`Check` duration, else the
previous value `br0`. -/
def commitBitrate (br0 : ℚ) (acc : LoopAcc) (obs : CheckObs) : ℚ :=
  if dtsValid acc then
    if dtsElapsedOf acc > 0 then ((obs.totalBytes * 8 : ℤ) : ℚ) / dtsElapsedOf acc else br0
  else if obs.durationSec > 0 then ((obs.totalBytes * 8 : ℤ) : ℚ) / obs.durationSec
  else br0

/-- Bitrate-history update: append the new bitrate when positive and drop
the front element when the length passes 10. -/
def commitHistory (hist0 : List ℚ) (br : ℚ) : List ℚ :=
  if br > 0 then
    let h1 := hist0 ++ [br]
    if h1.length > 10 then h1.tail else h1
  else hist0

/-- Committed average bitrate: the mean of the updated history when the
new bitrate is positive, else the previous value. -/
def commitAvg (avg0 : ℚ) (hist0 : List ℚ) (br : ℚ) : ℚ :=
  if br > 0 then
    (commitHistory hist0 br).sum / ((commitHistory hist0 br).length : ℚ)
  else avg0

/-- Committed stability label.  The Go code compares
`sqrt(variance)/avg` against 0.15 and 0.30; for `avg > 0` this is
equivalent to comparing `variance` against `(0.15*avg)^2` and
`(0.30*avg)^2`, which stays inside the rationals. -/
def commitStability (stab0 : String) (hist0 : List ℚ) (br : ℚ) : String :=
  if br > 0 then
    let hist := commitHistory hist0 br
    let avg := commitAvg 0 hist0 br
    if hist.length ≥ 3 then
      let variance : ℚ := (hist.map (fun x => (x - avg) ^ 2)).sum / (hist.length : ℚ)
      if avg > 0 then
        if variance < (3/20 * avg) ^ 2 then "stable"
        else if variance < (3/10 * avg) ^ 2 then "moderate"
        else "unstable"
      else "unknown"
    else "unknown"
  else stab0

/-- The metric derivation and locked commit of a successful `Check`
(stream.go, from `duration := time.Since(startTime)` to the quality
assignment), evaluated on the loop accumulator and the observations. -/
def commitCheck (s : StreamState) (acc : LoopAcc) (obs : CheckObs) : StreamState :=
  let keyframeInterval : Nat := gopOf acc
  -- ttfb_ms: 0 when no first read was recorded
  let ttfbMs : ℚ := obs.firstReadMs.getD 0
  let readThroughputBps : ℚ := throughputOf obs
  let readStallRatio : ℚ := stallRatioOf obs
  let fr : ℚ := commitFramerate s.framerate acc
  let br : ℚ := commitBitrate s.currentBitrate acc obs
  let hist : List ℚ := commitHistory s.bitrateHistory br
  let avg : ℚ := commitAvg s.avgBitrate s.bitrateHistory br
  let stability : String := commitStability s.bitrateStability s.bitrateHistory br
  -- playable and quality, read off the just-assigned framerate/bitrate
  let playable : Bool := decide (acc.keyframeCount ≥ 2 ∧ acc.videoCount > 10)
  let quality : String :=
    if acc.keyframeCount ≥ 2 ∧ acc.videoCount > 10 then
      if fr ≥ 25 ∧ br ≥ 600000 then "good"
      else if fr ≥ 20 ∧ br ≥ 400000 then "fair"
      else "poor"
    else "poor"
  { s with
    totalPackets := acc.packetCount
    videoPackets := acc.videoCount
    audioPackets := acc.audioCount
    keyframes := acc.keyframeCount
    lastCheckTime := obs.checkTime
    healthy := true
    consecutiveFails := 0
    gopSize := keyframeInterval
    response := obs.responseMs
    ttfbMs := ttfbMs
    readThroughputBps := readThroughputBps
    readStallCount := obs.stallCount
    readStallMaxMs := obs.maxStallSec * 1000
    readStallTotalMs := obs.totalStallSec * 1000
    readStallRatio := readStallRatio
    framerate := fr
    currentBitrate := br
    bitrateHistory := hist
    avgBitrate := avg
    bitrateStability := stability
    codec := acc.codec
    playable := playable
    quality := quality }

/-- One `Check` attempt: request/transport/status failures return the
state untouched; a mid-stream read failure keeps only the loop's codec
mutation; an exhausted loop with no video packet fails likewise; otherwise
the snapshot is committed.  Returns the new state and `none` on success,
`some e` on failure. -/
def check (s : StreamState) (run : HttpResult) : StreamState × Option CheckErr :=
  match run with
  | HttpResult.reqErr => (s, some CheckErr.reqFailed)
  | HttpResult.doErr => (s, some CheckErr.connFailed)
  | HttpResult.ok status body =>
    if status ≠ 200 then (s, some (CheckErr.httpStatus status))
    else
      match body with
      | BodyRun.readErr pre =>
          ({ s with codec := (runLoop s.codec pre).codec }, some CheckErr.readFailed)
      | BodyRun.done pkts obs =>
          let acc := runLoop s.codec pkts
          if ¬acc.hasVideo then ({ s with codec := acc.codec }, some CheckErr.noVideo)
          else (commitCheck s acc obs, none)

/-- States reachable from the fresh checker by `Check` attempts (of any
outcome) and `MarkFailed` resets. -/
inductive Reachable : StreamState → Prop
  | init : Reachable initState
  | step (s : StreamState) (run : HttpResult) :
      Reachable s → Reachable (check s run).1
  | fail (s : StreamState) (t : ℚ) :
      Reachable s → Reachable (markFailed t s)

/-- Modelled from the spec's words (claims C4): the arithmetic mean of
the bitrate history. -/
def claimMean (l : List ℚ) : ℚ := l.sum / (l.length : ℚ)

/-- Modelled from the spec's words (claim C2): the quality label as a
function of the committed playable flag, framerate and bitrate. -/
def specQualityLabel (playable : Bool) (fr br : ℚ) : String :=
  if playable then
    if fr ≥ 25 ∧ br ≥ 600000 then "good"
    else if fr ≥ 20 ∧ br ≥ 400000 then "fair"
    else "poor"
  else "poor"

/-- A concrete sampling run used by witnesses and counterexamples: two
H264 keyframes 10 s apart in DTS, 1000 bytes read, zero stalls. -/
def samplePkts : List Packet :=
  [⟨PktType.h264, 0, true⟩, ⟨PktType.h264, 10000000000, true⟩]

/-- Observations for `samplePkts`: 1000 bytes, all clocks zero. -/
def sampleObs : CheckObs := ⟨0, 1000, 0, 0, 0, none, 0, 0, 0⟩

/-- The full concrete successful run: HTTP 200, loop ends normally. -/
def sampleRun : HttpResult := HttpResult.ok 200 (BodyRun.done samplePkts sampleObs)

/-! ## Retry wrapper and timeout (scheduler.go `checkWithRetry`) -/

/-- The error a single attempt returns, read off the run alone (the
threaded snapshot does not influence success/failure; see
`check_snd_eq`). -/
def checkErrOf (run : HttpResult) : Option CheckErr :=
  match run with
  | HttpResult.reqErr => some CheckErr.reqFailed
  | HttpResult.doErr => some CheckErr.connFailed
  | HttpResult.ok status body =>
    if status ≠ 200 then some (CheckErr.httpStatus status)
    else
      match body with
      | BodyRun.readErr _ => some CheckErr.readFailed
      | BodyRun.done pkts _ =>
          if ¬(runLoop "" pkts).hasVideo then some CheckErr.noVideo else none

/-- Result of `checkWithRetry`: final snapshot, number of sampler
invocations, the backoff sleeps in order (seconds), and the error of the
last attempt (`none` on success). -/
structure RetryResult where
  state : StreamState
  attempts : Nat
  sleeps : List Nat
  err : Option CheckErr
  deriving Repr, DecidableEq

/-- The retry loop of `checkWithRetry`: `attempt` is the 0-based loop
index and `remaining` the number of iterations the `attempt ≤ maxRetries`
bound still allows.  At the top of every iteration with index > 0 the
code sleeps `2^attempt` seconds (`1 << attempt`); a successful attempt
returns at once; exhaustion marks the stream failed at time `t` and
returns the last error. -/
def retryFrom (runs : Nat → HttpResult) (t : ℚ) (lastErr : Option CheckErr) :
    StreamState → Nat → Nat → RetryResult
  | s, _, 0 => ⟨markFailed t s, 0, [], lastErr⟩
  | s, attempt, r + 1 =>
    let sl : List Nat := if attempt > 0 then [2 ^ attempt] else []
    let c := check s (runs attempt)
    match c.2 with
    | none => ⟨c.1, 1, sl, none⟩
    | some e =>
      let rest := retryFrom runs t (some e) c.1 (attempt + 1) r
      ⟨rest.state, rest.attempts + 1, sl ++ rest.sleeps, rest.err⟩

/-- `checkWithRetry` proper: attempts 0 through `maxRetries`, the
attempt with index `k` preceded by a `2^k`-second sleep for `k ≥ 1`. -/
def checkWithRetry (maxRetries : Nat) (runs : Nat → HttpResult) (t : ℚ)
    (s : StreamState) : RetryResult :=
  retryFrom runs t none s 0 (maxRetries + 1)

/-- Per-attempt timeout derivation at the top of `checkWithRetry`
(seconds): base `S + 5` where `S` is the configured sample duration when
positive, else the 10-second default; overwritten by `checkInterval − 5`
whenever `checkInterval > 20`. -/
def computeTimeout (sampleDuration checkInterval : ℤ) : ℤ :=
  let sampleDurationSec := if sampleDuration > 0 then sampleDuration else 10
  let timeout := sampleDurationSec + 5
  if checkInterval > 20 then checkInterval - 5 else timeout

/-! ## Scheduler registration (scheduler.go `AddStream`, main.go) -/

/-- Go map update `m[k] = v` on an association list: replace the value in
place when the key is present, else append the new binding. -/
def mapSet {α : Type} (m : List (String × α)) (k : String) (v : α) :
    List (String × α) :=
  if m.any (fun q => q.1 == k) then
    m.map (fun q => if q.1 == k then (k, v) else q)
  else m ++ [(k, v)]

/-- Go map read `m[k]`. -/
def mapGet {α : Type} (m : List (String × α)) (k : String) : Option α :=
  (m.find? (fun q => q.1 == k)).map (fun q => q.2)

/-- A stream checker: the immutable descriptor plus its snapshot.  The
derived display name (`extractStreamName`) is omitted; no claim reads
it. -/
structure StreamChecker where
  id : String
  url : String
  project : String
  line : String
  labels : List (String × String)
  state : StreamState
  deriving DecidableEq

/-- `NewStreamChecker` without the display name. -/
def newStreamChecker (id url project line : String)
    (labels : List (String × String)) : StreamChecker :=
  ⟨id, url, project, line, labels, initState⟩

/-- The scheduler's checker map, keyed by `project::line::url`. -/
structure Scheduler where
  checkers : List (String × StreamChecker)
  deriving DecidableEq

/-- The map key of `AddStream`: `fmt.Sprintf("%s::%s::%s", project, line, url)`. -/
def checkerKey (project line url : String) : String :=
  project ++ "::" ++ line ++ "::" ++ url

/-- `AddStream`: build a fresh checker and store it under the key,
replacing any previous checker with the same key. -/
def addStream (sch : Scheduler) (id url project line : String)
    (labels : List (String × String)) : Scheduler :=
  ⟨mapSet sch.checkers (checkerKey project line url)
    (newStreamChecker id url project line labels)⟩

/-- One `streams:` entry of the configuration (config.go `StreamConfig`). -/
structure StreamConfig where
  url : String
  id : String
  tag : String
  tags : List (String × String)
  deriving DecidableEq

/-- The tag map main.go builds for one entry: merge `tags`, add the
compatibility `tag` key when absent, then overwrite the system keys. -/
def buildTags (projectID line : String) (e : StreamConfig) :
    List (String × String) :=
  let tags := e.tags.foldl (fun m kv => mapSet m kv.1 kv.2) []
  let tags :=
    if e.tag ≠ "" then
      if (mapGet tags "tag").isNone then mapSet tags "tag" e.tag else tags
    else tags
  let tags := mapSet tags "project" projectID
  let tags := mapSet tags "line" line
  mapSet tags "id" e.id

/-- main.go's registration of one configured entry: lower-case the group
name into the line role, build the tag map, register. -/
def registerEntry (sch : Scheduler) (projectID groupName : String)
    (e : StreamConfig) : Scheduler :=
  let line := groupName.toLower
  addStream sch e.id e.url projectID line (buildTags projectID line e)

/-- Modelled from the spec's words (claim C6): throughput over the time
elapsed since `sample_start`, the start of the packet-sampling loop. -/
def specThroughput (bytes : ℤ) (sampleElapsedSec : ℚ) : ℚ :=
  if sampleElapsedSec > 0 then ((bytes * 8 : ℤ) : ℚ) / sampleElapsedSec else 0

/-- Modelled from the spec's words (claim C6): total stall time over the
time elapsed since `sample_start`, clamped to `[0, 1]`. -/
def specStallRatio (totalStallSec sampleElapsedSec : ℚ) : ℚ :=
  max 0 (min (totalStallSec / sampleElapsedSec) 1)

/-- Observations with distinct whole-`Check` and sampling-loop clocks:
1000 bytes, 5 s of stalls, 20 s since the start of `Check`, 10 s since
the start of the sampling loop. -/
def stallObs : CheckObs := ⟨0, 1000, 0, 0, 5, none, 20, 10, 0⟩

/-- The successful run carrying `stallObs`. -/
def stallRun : HttpResult := HttpResult.ok 200 (BodyRun.done samplePkts stallObs)

/-- A successful run whose single video packet leaves the DTS window
invalid (`first_dts = last_dts`). -/
def oneVideoRun : HttpResult :=
  HttpResult.ok 200 (BodyRun.done [⟨PktType.h264, 5, false⟩] ⟨0, 0, 0, 0, 0, none, 0, 0, 0⟩)

end VideoExporter

namespace VideoExporter

/-- A failed `Check` attempt can only have touched the codec field. -/
theorem check_fail_frame (s : StreamState) (run : HttpResult)
    (h : (check s run).2 ≠ none) :
    (check s run).1 = { s with codec := (check s run).1.codec } := by
  cases run with
  | reqErr => rfl
  | doErr => rfl
  | ok status body =>
    by_cases hs : status = 200
    · cases body with
      | readErr pre => simp [check, hs]
      | done pkts obs =>
        by_cases hv : (runLoop s.codec pkts).hasVideo
        · exfalso; apply h; simp [check, hs, hv]
        · simp [check, hs, hv]
    · simp [check, hs]

/-- A successful `Check` attempt is an HTTP 200 whose sampling loop ended
with at least one video packet, and its state is the commit. -/
theorem check_success_shape (s : StreamState) (run : HttpResult)
    (h : (check s run).2 = none) :
    ∃ pkts obs, run = HttpResult.ok 200 (BodyRun.done pkts obs)
      ∧ (runLoop s.codec pkts).hasVideo = true
      ∧ (check s run).1 = commitCheck s (runLoop s.codec pkts) obs := by
  cases run with
  | reqErr => simp [check] at h
  | doErr => simp [check] at h
  | ok status body =>
    by_cases hs : status = 200
    · cases body with
      | readErr pre => simp [check, hs] at h
      | done pkts obs =>
        by_cases hv : (runLoop s.codec pkts).hasVideo
        · exact ⟨pkts, obs, by rw [hs], hv, by simp [check, hs, hv]⟩
        · simp [check, hs, hv] at h
    · simp [check, hs] at h

/-- The history update never grows the history past 10 entries. -/
theorem commitHistory_length_le (h : List ℚ) (br : ℚ) (hh : h.length ≤ 10) :
    (commitHistory h br).length ≤ 10 := by
  unfold commitHistory
  by_cases hbr : br > 0
  · simp only [if_pos hbr]
    split
    · simp only [List.length_tail, List.length_append, List.length_singleton]
      omega
    · simp only [List.length_append, List.length_singleton] at *
      omega
  · simpa [hbr] using hh

/-- C1: for every snapshot, the exported overall score is 0 whenever
`stall_ratio > 0.5` (strict), and otherwise equals the claim's table of
the integer quality and stability scores. -/
theorem c1_overall_score (s : StreamState) :
    exportedOverallScore s =
      if s.readStallRatio > 1/2 then 0
      else claimOverallTable (qualityScoreOf s.quality) (stabilityScoreOf s.bitrateStability) := by
  unfold exportedOverallScore overallScoreOf claimOverallTable
  split_ifs <;> rfl

/-- C2: on every successful `Check`, the committed quality label is the
spec's function of the committed playable flag, framerate and bitrate;
at the boundary, playable with framerate 25 and bitrate 600000 is "good"
and playable with framerate 24.999 and bitrate 600000 is "fair". -/
theorem c2_quality_label (s : StreamState) (run : HttpResult)
    (h : (check s run).2 = none) :
    (check s run).1.quality =
      specQualityLabel (check s run).1.playable
        (check s run).1.framerate (check s run).1.currentBitrate
    ∧ specQualityLabel true 25 600000 = "good"
    ∧ specQualityLabel true (24999/1000) 600000 = "fair" := by
  refine ⟨?_, by norm_num [specQualityLabel], by norm_num [specQualityLabel]⟩
  cases run with
  | reqErr => simp [check] at h
  | doErr => simp [check] at h
  | ok status body =>
    by_cases hs : status = 200
    · cases body with
      | readErr pre => simp [check, hs] at h
      | done pkts obs =>
        by_cases hv : (runLoop s.codec pkts).hasVideo
        · simp [check, hs, hv, commitCheck, specQualityLabel]
        · simp [check, hs, hv] at h
    · simp [check, hs] at h

/-- C2 witness: a concrete successful attempt (one H264 packet, zeroed
observations) on the fresh state. -/
theorem c2_quality_label_witness :
    (check initState (HttpResult.ok 200 (BodyRun.done [⟨PktType.h264, 0, true⟩]
        ⟨0, 0, 0, 0, 0, none, 0, 0, 0⟩))).2 = none
    ∧ (check initState (HttpResult.ok 200 (BodyRun.done [⟨PktType.h264, 0, true⟩]
        ⟨0, 0, 0, 0, 0, none, 0, 0, 0⟩))).1.quality =
      specQualityLabel
        (check initState (HttpResult.ok 200 (BodyRun.done [⟨PktType.h264, 0, true⟩]
          ⟨0, 0, 0, 0, 0, none, 0, 0, 0⟩))).1.playable
        (check initState (HttpResult.ok 200 (BodyRun.done [⟨PktType.h264, 0, true⟩]
          ⟨0, 0, 0, 0, 0, none, 0, 0, 0⟩))).1.framerate
        (check initState (HttpResult.ok 200 (BodyRun.done [⟨PktType.h264, 0, true⟩]
          ⟨0, 0, 0, 0, 0, none, 0, 0, 0⟩))).1.currentBitrate := by
  have h : (check initState (HttpResult.ok 200 (BodyRun.done [⟨PktType.h264, 0, true⟩]
      ⟨0, 0, 0, 0, 0, none, 0, 0, 0⟩))).2 = none := by rfl
  exact ⟨h, (c2_quality_label _ _ h).1⟩

/-- C3: in every reachable snapshot, the playable flag holds exactly when
at least 2 keyframes and more than 10 video packets were committed. -/
theorem c3_playable_iff (s : StreamState) (h : Reachable s) :
    s.playable = true ↔ 2 ≤ s.keyframes ∧ 10 < s.videoPackets := by
  induction h with
  | init => simp [initState]
  | step s run hr ih =>
    by_cases hf : (check s run).2 = none
    · cases run with
      | reqErr => simp [check] at hf
      | doErr => simp [check] at hf
      | ok status body =>
        by_cases hs : status = 200
        · cases body with
          | readErr pre => simp [check, hs] at hf
          | done pkts obs =>
            by_cases hv : (runLoop s.codec pkts).hasVideo
            · simp [check, hs, hv, commitCheck]
            · simp [check, hs, hv] at hf
        · simp [check, hs] at hf
    · have hfr := check_fail_frame s run hf
      rw [hfr]; simpa using ih
  | fail s t ih => simp [markFailed]

/-- C3 witness: the invariant instantiated at the fresh checker state. -/
theorem c3_playable_iff_witness :
    initState.playable = true ↔ 2 ≤ initState.keyframes ∧ 10 < initState.videoPackets :=
  c3_playable_iff initState Reachable.init

/-- In every reachable snapshot the bitrate history is at most 10 long. -/
theorem reachable_history_length_le (s : StreamState) (h : Reachable s) :
    s.bitrateHistory.length ≤ 10 := by
  induction h with
  | init => simp [initState]
  | step s run hr ih =>
    by_cases hf : (check s run).2 = none
    · obtain ⟨pkts, obs, -, -, hst⟩ := check_success_shape s run hf
      rw [hst]
      simpa [commitCheck] using commitHistory_length_le s.bitrateHistory _ ih
    · rw [check_fail_frame s run hf]; simpa using ih
  | fail s t hr ih => simpa [markFailed] using ih

/-- C4 counterexample: a successful sample committing bitrate 800 followed
by `MarkFailed` reaches a snapshot whose `avg_bitrate` is 0 while its
retained bitrate history is `[800]`, of mean 800. -/
theorem c4_counterexample :
    Reachable (markFailed 0 (check initState sampleRun).1)
    ∧ (markFailed 0 (check initState sampleRun).1).avgBitrate ≠
        claimMean (markFailed 0 (check initState sampleRun).1).bitrateHistory := by
  refine ⟨Reachable.fail _ 0 (Reachable.step _ _ Reachable.init), ?_⟩
  have hloop : runLoop initState.codec samplePkts =
      ⟨2, 2, 0, 2, true, false, true, 0, 10000000000, "H264"⟩ := by decide
  have hbr : commitBitrate 0
      ⟨2, 2, 0, 2, true, false, true, 0, 10000000000, "H264"⟩ sampleObs = (800 : ℚ) := by
    norm_num [commitBitrate, dtsValid, dtsElapsedOf, sampleObs]
  simp only [sampleRun, check, hloop, markFailed, commitCheck]
  norm_num [hbr, commitHistory, commitAvg, claimMean, initState]

/-- C4 amended: the bitrate history of every reachable snapshot has at
most 10 entries; `avg_bitrate` equals the mean of the history after every
successful `Check` whose committed bitrate is positive; `MarkFailed`
zeroes `avg_bitrate` while retaining the history unchanged. -/
theorem c4_amended :
    (∀ s, Reachable s → s.bitrateHistory.length ≤ 10)
    ∧ (∀ s run, (check s run).2 = none → 0 < (check s run).1.currentBitrate →
        (check s run).1.avgBitrate = claimMean (check s run).1.bitrateHistory)
    ∧ (∀ s t, (markFailed t s).avgBitrate = 0 ∧
        (markFailed t s).bitrateHistory = s.bitrateHistory) := by
  refine ⟨reachable_history_length_le, ?_, fun s t => ⟨rfl, rfl⟩⟩
  · intro s run hok hbr
    obtain ⟨pkts, obs, -, -, hst⟩ := check_success_shape s run hok
    rw [hst] at hbr ⊢
    simp only [commitCheck] at hbr ⊢
    simp [commitAvg, claimMean, hbr]

/-- `stepPacket` turns `hasVideo` on exactly for H264 packets. -/
theorem stepPacket_hasVideo (a : LoopAcc) (p : Packet) :
    (stepPacket a p).hasVideo = (a.hasVideo || p.type == PktType.h264) := by
  rcases p with ⟨ty, ti, kf⟩
  cases ty <;> simp [stepPacket] <;> split_ifs <;> simp

/-- Over a packet list, `hasVideo` records whether any H264 packet
occurred (independently of the starting codec). -/
theorem foldl_stepPacket_hasVideo (pkts : List Packet) (a : LoopAcc) :
    (pkts.foldl stepPacket a).hasVideo =
      (a.hasVideo || pkts.any (fun p => p.type == PktType.h264)) := by
  induction pkts generalizing a with
  | nil => simp
  | cons p ps ih =>
    simp [List.foldl_cons, List.any_cons, ih, stepPacket_hasVideo, Bool.or_assoc]

/-- `runLoop`'s video flag does not depend on the initial codec. -/
theorem runLoop_hasVideo (c : String) (pkts : List Packet) :
    (runLoop c pkts).hasVideo = pkts.any (fun p => p.type == PktType.h264) := by
  simp [runLoop, foldl_stepPacket_hasVideo]

/-- Success or failure of an attempt, and which error it returns, depend
only on the run, not on the threaded snapshot. -/
theorem check_snd_eq (s : StreamState) (run : HttpResult) :
    (check s run).2 = checkErrOf run := by
  cases run with
  | reqErr => rfl
  | doErr => rfl
  | ok status body =>
    by_cases hs : status = 200
    · cases body with
      | readErr pre => simp [check, checkErrOf, hs]
      | done pkts obs =>
        simp only [check, checkErrOf, hs, runLoop_hasVideo]
        split_ifs <;> simp_all
    · cases body <;> simp [check, checkErrOf, hs]

/-- The retry loop makes at most `remaining` attempts. -/
theorem retryFrom_attempts_le (runs : Nat → HttpResult) (t : ℚ) :
    ∀ (r : Nat) (le0 : Option CheckErr) (s : StreamState) (a : Nat),
      (retryFrom runs t le0 s a r).attempts ≤ r := by
  intro r
  induction r with
  | zero => intro le0 s a; exact Nat.le_refl 0
  | succ r ih =>
    intro le0 s a
    cases hce : (check s (runs a)).2 with
    | none => simp [retryFrom, hce]
    | some e =>
      simp only [retryFrom, hce]
      exact Nat.succ_le_succ (ih _ _ _)

/-- Unfolding of one failing iteration of the retry loop. -/
theorem retryFrom_fail_step (runs : Nat → HttpResult) (t : ℚ)
    (le0 : Option CheckErr) (s : StreamState) (a r : Nat) (e : CheckErr)
    (hce : (check s (runs a)).2 = some e) :
    retryFrom runs t le0 s a (r + 1) =
      ⟨(retryFrom runs t (some e) (check s (runs a)).1 (a + 1) r).state,
       (retryFrom runs t (some e) (check s (runs a)).1 (a + 1) r).attempts + 1,
       (if a > 0 then [2 ^ a] else []) ++
         (retryFrom runs t (some e) (check s (runs a)).1 (a + 1) r).sleeps,
       (retryFrom runs t (some e) (check s (runs a)).1 (a + 1) r).err⟩ := by
  simp only [retryFrom, hce]

/-- Sleeps of the retry loop started at a positive attempt index: one
`2^(a+i)`-second sleep before each of its attempts. -/
theorem retryFrom_sleeps (runs : Nat → HttpResult) (t : ℚ) :
    ∀ (r : Nat) (le0 : Option CheckErr) (s : StreamState) (a : Nat), 1 ≤ a →
      (retryFrom runs t le0 s a r).sleeps =
        (List.range (retryFrom runs t le0 s a r).attempts).map (fun i => 2 ^ (a + i)) := by
  intro r
  induction r with
  | zero => intro le0 s a ha; rfl
  | succ r ih =>
    intro le0 s a ha
    have hsl : (if a > 0 then ([2 ^ a] : List Nat) else []) = [2 ^ a] := by
      simp [Nat.lt_of_lt_of_le Nat.zero_lt_one ha]
    cases hce : (check s (runs a)).2 with
    | none =>
      simp only [retryFrom, hce, hsl]
      simp [List.range_succ]
    | some e =>
      simp only [retryFrom, hce, hsl]
      rw [ih (some e) (check s (runs a)).1 (a + 1) (by omega)]
      rw [List.range_succ_eq_map, List.map_cons, List.map_map]
      have hfun : ((fun i => 2 ^ (a + i)) ∘ Nat.succ) = fun i => 2 ^ (a + 1 + i) := by
        funext i
        simp only [Function.comp_apply]
        congr 1
        omega
      rw [hfun]
      simp

/-- First-success behaviour of the retry loop: if the attempts at offsets
`0 … k−1` fail and the one at offset `k` succeeds within the budget, the
loop stops after exactly `k+1` attempts with no error. -/
theorem retryFrom_first_success (runs : Nat → HttpResult) (t : ℚ) :
    ∀ (r k : Nat) (le0 : Option CheckErr) (s : StreamState) (a : Nat),
      (∀ j, j < k → checkErrOf (runs (a + j)) ≠ none) →
      checkErrOf (runs (a + k)) = none →
      k < r →
      (retryFrom runs t le0 s a r).attempts = k + 1
      ∧ (retryFrom runs t le0 s a r).err = none := by
  intro r
  induction r with
  | zero => intro k le0 s a _ _ hk; exact absurd hk (Nat.not_lt_zero k)
  | succ r ih =>
    intro k le0 s a hfail hsucc hk
    cases k with
    | zero =>
      have hce : (check s (runs a)).2 = none := by
        rw [check_snd_eq]; simpa using hsucc
      simp [retryFrom, hce]
    | succ k' =>
      have hfa : checkErrOf (runs a) ≠ none := by
        simpa using hfail 0 (Nat.succ_pos k')
      cases hce : (check s (runs a)).2 with
      | none =>
        rw [check_snd_eq] at hce
        exact absurd hce hfa
      | some e =>
        have hrec := ih k' (some e) (check s (runs a)).1 (a + 1)
          (fun j hj => by
            have := hfail (j + 1) (by omega)
            have harith : a + (j + 1) = a + 1 + j := by omega
            rwa [harith] at this)
          (by
            have harith : a + (k' + 1) = a + 1 + k' := by omega
            rwa [harith] at hsucc)
          (by omega)
        simp only [retryFrom, hce]
        exact ⟨by rw [hrec.1], hrec.2⟩

/-- Exhaustion behaviour of the retry loop: when every attempt within the
budget fails, the final error is the last attempt's and the final state is
a `markFailed` reset. -/
theorem retryFrom_exhaust (runs : Nat → HttpResult) (t : ℚ) :
    ∀ (r : Nat) (le0 : Option CheckErr) (s : StreamState) (a : Nat), 1 ≤ r →
      (∀ j, j < r → checkErrOf (runs (a + j)) ≠ none) →
      (retryFrom runs t le0 s a r).err = checkErrOf (runs (a + r - 1))
      ∧ ∃ s', (retryFrom runs t le0 s a r).state = markFailed t s' := by
  intro r
  induction r with
  | zero => intro le0 s a h1 _; exact absurd h1 (by omega)
  | succ r ih =>
    intro le0 s a h1 hfail
    have hfa : checkErrOf (runs a) ≠ none := by
      simpa using hfail 0 (Nat.succ_pos r)
    cases hce : (check s (runs a)).2 with
    | none =>
      rw [check_snd_eq] at hce
      exact absurd hce hfa
    | some e =>
      have hes : some e = checkErrOf (runs a) := by rw [← check_snd_eq s, hce]
      cases r with
      | zero =>
        refine ⟨?_, ⟨(check s (runs a)).1, ?_⟩⟩
        · simp only [retryFrom, hce]
          simpa using hes
        · simp [retryFrom, hce]
      | succ r' =>
        have hrec := ih (some e) (check s (runs a)).1 (a + 1)
          (Nat.succ_le_succ (Nat.zero_le r'))
          (fun j hj => by
            have := hfail (j + 1) (by omega)
            have harith : a + (j + 1) = a + 1 + j := by omega
            rwa [harith] at this)
        rw [retryFrom_fail_step runs t le0 s a (r' + 1) e hce]
        refine ⟨?_, hrec.2⟩
        show (retryFrom runs t (some e) (check s (runs a)).1 (a + 1) (r' + 1)).err = _
        rw [hrec.1]
        have harith2 : a + 1 + (r' + 1) - 1 = a + (r' + 1 + 1) - 1 := by omega
        rw [harith2]

/-- C5 counterexample: with `max_retries = 1` and two failing attempts,
the sleep between the first and the second attempt is 2 seconds, not the
`2^(k+1) = 4` seconds the claim's formula gives for `k = 1`. -/
theorem c5_counterexample :
    (checkWithRetry 1 (fun _ => HttpResult.reqErr) 0 initState).sleeps = [2]
    ∧ 2 ≠ 2 ^ (1 + 1) := by
  exact ⟨rfl, by decide⟩

/-- C5 amended: the wrapper runs the sampler at most `max_retries + 1`
times; between attempt `k ≥ 1` and attempt `k+1` it sleeps `2^k` seconds
(the sequence 2 s, 4 s, 8 s, …); it returns on the first successful
attempt with no error; on exhaustion it marks the snapshot failed and
returns the last attempt's error. -/
theorem c5_amended (maxRetries : Nat) (runs : Nat → HttpResult) (t : ℚ)
    (s : StreamState) :
    (checkWithRetry maxRetries runs t s).attempts ≤ maxRetries + 1
    ∧ (checkWithRetry maxRetries runs t s).sleeps =
        (List.range ((checkWithRetry maxRetries runs t s).attempts - 1)).map
          (fun i => 2 ^ (i + 1))
    ∧ (∀ k, k ≤ maxRetries → checkErrOf (runs k) = none →
        (∀ j, j < k → checkErrOf (runs j) ≠ none) →
        (checkWithRetry maxRetries runs t s).attempts = k + 1
        ∧ (checkWithRetry maxRetries runs t s).err = none)
    ∧ ((∀ k, k ≤ maxRetries → checkErrOf (runs k) ≠ none) →
        (checkWithRetry maxRetries runs t s).err = checkErrOf (runs maxRetries)
        ∧ ∃ s', (checkWithRetry maxRetries runs t s).state = markFailed t s') := by
  refine ⟨retryFrom_attempts_le runs t _ _ _ _, ?_, ?_, ?_⟩
  · unfold checkWithRetry
    cases hce : (check s (runs 0)).2 with
    | none => simp [retryFrom, hce]
    | some e =>
      simp only [retryFrom, hce]
      rw [retryFrom_sleeps runs t maxRetries (some e) (check s (runs 0)).1 1 (Nat.le_refl 1)]
      simp only [Nat.add_sub_cancel, List.nil_append]
      apply List.map_congr_left
      intro i _
      congr 1
      omega
  · intro k hk hsucc hfail
    have := retryFrom_first_success runs t (maxRetries + 1) k none s 0
      (fun j hj => by simpa using hfail j hj) (by simpa using hsucc) (by omega)
    exact this
  · intro hall
    have := retryFrom_exhaust runs t (maxRetries + 1) none s 0
      (Nat.succ_le_succ (Nat.zero_le maxRetries))
      (fun j hj => by simpa using hall j (by omega))
    simpa using this

/-- C5 amended witness: two failing transport attempts at
`max_retries = 1`: at most two attempts, exhaustion returns the transport
error and a `markFailed` state. -/
theorem c5_amended_witness :
    (checkWithRetry 1 (fun _ => HttpResult.doErr) 0 initState).attempts ≤ 2
    ∧ (checkWithRetry 1 (fun _ => HttpResult.doErr) 0 initState).err =
        checkErrOf HttpResult.doErr
    ∧ ∃ s', (checkWithRetry 1 (fun _ => HttpResult.doErr) 0 initState).state =
        markFailed 0 s' := by
  obtain ⟨h1, h2, h3, h4⟩ := c5_amended 1 (fun _ => HttpResult.doErr) 0 initState
  have h4x := h4 (fun k _ => by simp [checkErrOf])
  exact ⟨h1, h4x.1, h4x.2⟩

/-- C4 amended witness: the three parts at concrete inputs — the fresh
state, the concrete successful run (committed bitrate 800 > 0), and a
`MarkFailed` on the fresh state. -/
theorem c4_amended_witness :
    initState.bitrateHistory.length ≤ 10
    ∧ (check initState sampleRun).1.avgBitrate =
        claimMean (check initState sampleRun).1.bitrateHistory
    ∧ (markFailed 0 initState).avgBitrate = 0 := by
  refine ⟨c4_amended.1 initState Reachable.init, ?_,
    (c4_amended.2.2 initState 0).1⟩
  apply c4_amended.2.1 _ _ (by rfl)
  have hloop : runLoop initState.codec samplePkts =
      ⟨2, 2, 0, 2, true, false, true, 0, 10000000000, "H264"⟩ := by decide
  simp only [sampleRun, check, hloop, commitCheck]
  norm_num [commitBitrate, dtsValid, dtsElapsedOf, sampleObs]

/-- Positivity of the DTS window length under validity. -/
theorem dtsElapsed_pos (acc : LoopAcc) (h : dtsValid acc) : 0 < dtsElapsedOf acc := by
  unfold dtsElapsedOf
  apply div_pos
  · exact_mod_cast sub_pos.mpr h.2
  · norm_num

/-- A successful run of the `done` shape has video packets. -/
theorem done_success_hasVideo (s : StreamState) (pkts : List Packet) (obs : CheckObs)
    (h : (check s (HttpResult.ok 200 (BodyRun.done pkts obs))).2 = none) :
    (runLoop s.codec pkts).hasVideo = true := by
  by_cases hv : (runLoop s.codec pkts).hasVideo
  · exact hv
  · exfalso; simp [check, hv] at h

/-- C6 counterexample: a successful sample observed 20 s after the start
of `Check` but 10 s after the start of the sampling loop, with 1000 bytes
and 5 s of stalls: the code commits throughput 400 bps and stall ratio
1/4 (denominator 20 s), while the claim's formulas over the sampling-loop
elapsed time give 800 bps and 1/2. -/
theorem c6_counterexample :
    (check initState stallRun).2 = none
    ∧ (check initState stallRun).1.readThroughputBps = 400
    ∧ specThroughput stallObs.totalBytes stallObs.sampleElapsedSec = 800
    ∧ (check initState stallRun).1.readStallRatio = 1/4
    ∧ specStallRatio stallObs.totalStallSec stallObs.sampleElapsedSec = 1/2 := by
  have hloop : runLoop initState.codec samplePkts =
      ⟨2, 2, 0, 2, true, false, true, 0, 10000000000, "H264"⟩ := by decide
  refine ⟨rfl, ?_, ?_, ?_, ?_⟩
  · simp only [stallRun, check, hloop]
    norm_num [commitCheck, throughputOf, stallObs]
  · norm_num [specThroughput, stallObs]
  · simp only [stallRun, check, hloop]
    norm_num [commitCheck, stallRatioOf, stallObs, min_def]
  · norm_num [specStallRatio, stallObs, min_def, max_def]

/-- C6 amended: on every successful sampling cycle the committed
throughput and stall ratio use the wall-clock elapsed since the start of
the `Check` call (`startTime`, stamped before the HTTP request) as their
denominator: throughput is `bytes*8/duration` (0 when the duration is not
positive) and the stall ratio is `total_stall/duration` clamped to
`[0, 1]` (the lower clamp vacuous for non-negative stall totals). -/
theorem c6_amended (s : StreamState) (pkts : List Packet) (obs : CheckObs)
    (h : (check s (HttpResult.ok 200 (BodyRun.done pkts obs))).2 = none)
    (hst : 0 ≤ obs.totalStallSec) :
    (check s (HttpResult.ok 200 (BodyRun.done pkts obs))).1.readThroughputBps =
      specThroughput obs.totalBytes obs.durationSec
    ∧ (check s (HttpResult.ok 200 (BodyRun.done pkts obs))).1.readStallRatio =
      (if obs.durationSec > 0 then specStallRatio obs.totalStallSec obs.durationSec
       else 0) := by
  have hv := done_success_hasVideo s pkts obs h
  constructor
  · simp [check, hv, commitCheck, throughputOf, specThroughput]
  · have hrs : (check s (HttpResult.ok 200 (BodyRun.done pkts obs))).1.readStallRatio =
        stallRatioOf obs := by
      simp [check, hv, commitCheck]
    rw [hrs]
    unfold stallRatioOf specStallRatio
    split_ifs with hd
    · rw [max_eq_right]
      exact le_min (div_nonneg hst (le_of_lt hd)) zero_le_one
    · rfl

/-- C6 amended witness: the amended equations at the concrete run with
distinct clocks (20 s whole-call, 10 s loop). -/
theorem c6_amended_witness :
    (check initState stallRun).2 = none
    ∧ (0:ℚ) ≤ stallObs.totalStallSec
    ∧ (check initState stallRun).1.readThroughputBps =
        specThroughput stallObs.totalBytes stallObs.durationSec := by
  have h : (check initState stallRun).2 = none := rfl
  have hst : (0:ℚ) ≤ stallObs.totalStallSec := by norm_num [stallObs]
  exact ⟨h, hst, (c6_amended initState samplePkts stallObs h hst).1⟩

/-- C7 counterexample: a cycle that committed framerate 1/5 followed by a
successful cycle whose single video packet leaves the DTS window invalid:
the second commit retains framerate 1/5 instead of the claimed 0. -/
theorem c7_counterexample :
    (check (check initState sampleRun).1 oneVideoRun).2 = none
    ∧ ¬ dtsValid (runLoop (check initState sampleRun).1.codec
        [⟨PktType.h264, 5, false⟩])
    ∧ (check (check initState sampleRun).1 oneVideoRun).1.framerate = 1/5
    ∧ ((1:ℚ)/5) ≠ 0 := by
  have hloop1 : runLoop initState.codec samplePkts =
      ⟨2, 2, 0, 2, true, false, true, 0, 10000000000, "H264"⟩ := by decide
  have hs1 : (check initState sampleRun).1 =
      commitCheck initState ⟨2, 2, 0, 2, true, false, true, 0, 10000000000, "H264"⟩
        sampleObs := by
    simp [sampleRun, check, hloop1]
  have hcodecA : (commitCheck initState
      ⟨2, 2, 0, 2, true, false, true, 0, 10000000000, "H264"⟩ sampleObs).codec =
      "H264" := rfl
  have hfrA : (commitCheck initState
      ⟨2, 2, 0, 2, true, false, true, 0, 10000000000, "H264"⟩ sampleObs).framerate =
      1/5 := by
    show commitFramerate initState.framerate
      ⟨2, 2, 0, 2, true, false, true, 0, 10000000000, "H264"⟩ = 1/5
    norm_num [commitFramerate, dtsValid, dtsElapsedOf, initState]
  have hloop2 : runLoop "H264" [⟨PktType.h264, 5, false⟩] =
      ⟨1, 1, 0, 0, true, false, true, 5, 5, "H264"⟩ := by decide
  have hrun2 : check (check initState sampleRun).1 oneVideoRun =
      (commitCheck (commitCheck initState
          ⟨2, 2, 0, 2, true, false, true, 0, 10000000000, "H264"⟩ sampleObs)
        ⟨1, 1, 0, 0, true, false, true, 5, 5, "H264"⟩
        ⟨0, 0, 0, 0, 0, none, 0, 0, 0⟩, none) := by
    rw [hs1]
    simp [oneVideoRun, check, hcodecA, hloop2]
  refine ⟨by rw [hrun2], ?_, ?_, by norm_num⟩
  · rw [hs1, hcodecA, hloop2]
    decide
  · rw [hrun2]
    show commitFramerate (commitCheck initState
        ⟨2, 2, 0, 2, true, false, true, 0, 10000000000, "H264"⟩ sampleObs).framerate
      ⟨1, 1, 0, 0, true, false, true, 5, 5, "H264"⟩ = 1/5
    rw [hfrA]
    norm_num [commitFramerate, dtsValid]

/-- C7 amended: on every successful cycle, the committed framerate is
`video_packets / dts_elapsed` when the DTS window is valid, and RETAINS
the previously committed value (not 0) when the window is invalid. -/
theorem c7_amended (s : StreamState) (pkts : List Packet) (obs : CheckObs)
    (h : (check s (HttpResult.ok 200 (BodyRun.done pkts obs))).2 = none) :
    (dtsValid (runLoop s.codec pkts) →
        (check s (HttpResult.ok 200 (BodyRun.done pkts obs))).1.framerate =
          ((runLoop s.codec pkts).videoCount : ℚ) /
            dtsElapsedOf (runLoop s.codec pkts))
    ∧ (¬ dtsValid (runLoop s.codec pkts) →
        (check s (HttpResult.ok 200 (BodyRun.done pkts obs))).1.framerate =
          s.framerate) := by
  have hv := done_success_hasVideo s pkts obs h
  constructor <;> intro hd
  · simp [check, hv, commitCheck, commitFramerate, hd, dtsElapsed_pos _ hd]
  · simp [check, hv, commitCheck, commitFramerate, hd]

/-- C7 amended witness: the valid-window branch at the concrete
two-packet run, giving framerate `2 / 10`. -/
theorem c7_amended_witness :
    (check initState sampleRun).2 = none
    ∧ dtsValid (runLoop initState.codec samplePkts)
    ∧ (check initState sampleRun).1.framerate =
        ((runLoop initState.codec samplePkts).videoCount : ℚ) /
          dtsElapsedOf (runLoop initState.codec samplePkts) := by
  have h : (check initState sampleRun).2 = none := rfl
  have hd : dtsValid (runLoop initState.codec samplePkts) := by decide
  exact ⟨h, hd, (c7_amended initState samplePkts sampleObs h).1 hd⟩

/-- The loop either keeps the codec or sets an empty codec to "H264". -/
theorem foldl_stepPacket_codec (pkts : List Packet) (a : LoopAcc) :
    (pkts.foldl stepPacket a).codec = a.codec
      ∨ (a.codec = "" ∧ (pkts.foldl stepPacket a).codec = "H264") := by
  induction pkts generalizing a with
  | nil => left; rfl
  | cons p ps ih =>
    have hstep : (stepPacket a p).codec = a.codec
        ∨ (a.codec = "" ∧ (stepPacket a p).codec = "H264") := by
      rcases p with ⟨ty, ti, kf⟩
      cases ty <;> simp [stepPacket] <;> split_ifs <;> simp_all
    rw [List.foldl_cons]
    rcases ih (stepPacket a p) with hrest | hrest
    · rcases hstep with h2 | h2
      · left; rw [hrest, h2]
      · right; exact ⟨h2.1, by rw [hrest, h2.2]⟩
    · rcases hstep with h2 | h2
      · right; exact ⟨h2 ▸ hrest.1, hrest.2⟩
      · exact absurd (h2.2 ▸ hrest.1) (by simp)

/-- C8 counterexample: a mid-stream demultiplexer read failure after one
H264 packet mutates the snapshot's codec field from "" to "H264" even
though the attempt fails. -/
theorem c8_counterexample :
    (check initState (HttpResult.ok 200 (BodyRun.readErr
        [⟨PktType.h264, 0, false⟩]))).2 ≠ none
    ∧ (check initState (HttpResult.ok 200 (BodyRun.readErr
        [⟨PktType.h264, 0, false⟩]))).1.codec = "H264"
    ∧ initState.codec = "" := by
  refine ⟨?_, rfl, rfl⟩
  simp [check]

/-- C8 amended: a failed attempt leaves every snapshot field unchanged
EXCEPT possibly the codec, which a mid-stream read failure may have set
from "" to "H264" while video packets were being processed. -/
theorem c8_amended (s : StreamState) (run : HttpResult)
    (h : (check s run).2 ≠ none) :
    (check s run).1 = { s with codec := (check s run).1.codec }
    ∧ ((check s run).1.codec = s.codec
        ∨ (s.codec = "" ∧ (check s run).1.codec = "H264")) := by
  refine ⟨check_fail_frame s run h, ?_⟩
  cases run with
  | reqErr => left; rfl
  | doErr => left; rfl
  | ok status body =>
    by_cases hs : status = 200
    · cases body with
      | readErr pre =>
        have hc : (check s (HttpResult.ok status (BodyRun.readErr pre))).1.codec =
            (runLoop s.codec pre).codec := by simp [check, hs]
        rw [hc]
        simpa [runLoop] using foldl_stepPacket_codec pre
          ⟨0, 0, 0, 0, false, false, false, 0, 0, s.codec⟩
      | done pkts obs =>
        by_cases hv : (runLoop s.codec pkts).hasVideo
        · exact absurd (by simp [check, hs, hv] : (check s _).2 = none) h
        · have hc : (check s (HttpResult.ok status (BodyRun.done pkts obs))).1.codec =
              (runLoop s.codec pkts).codec := by simp [check, hs, hv]
          rw [hc]
          simpa [runLoop] using foldl_stepPacket_codec pkts
            ⟨0, 0, 0, 0, false, false, false, 0, 0, s.codec⟩
    · left; simp [check, hs]

/-- C8 amended witness: the frame condition at a concrete transport
failure on the fresh state. -/
theorem c8_amended_witness :
    (check initState HttpResult.reqErr).2 ≠ none
    ∧ (check initState HttpResult.reqErr).1 =
        { initState with codec := (check initState HttpResult.reqErr).1.codec } := by
  have h : (check initState HttpResult.reqErr).2 ≠ none := by simp [check]
  exact ⟨h, (c8_amended initState HttpResult.reqErr h).1⟩

/-- C9 counterexample: with `sample_duration = 30` and
`check_interval = 21` the timeout is overwritten down to 16 s, below the
base 35 s — the claim's "raised (never lowered)" fails; and with an
unset (zero) `sample_duration` the base is the 10-second default plus 5,
not `sample_duration + 5`. -/
theorem c9_counterexample :
    computeTimeout 30 21 = 16 ∧ (16 : ℤ) < 30 + 5
    ∧ computeTimeout 0 10 = 15 ∧ (15 : ℤ) ≠ 0 + 5 := by decide

/-- C9 amended: the per-attempt timeout is `S + 5` where `S` is the
configured sample duration when positive (else the 10-second default)
whenever `check_interval ≤ 20`; whenever `check_interval > 20` it is set
unconditionally to `check_interval − 5`, which may lower it. -/
theorem c9_amended (sampleDuration checkInterval : ℤ) :
    (checkInterval ≤ 20 →
      computeTimeout sampleDuration checkInterval =
        (if sampleDuration > 0 then sampleDuration else 10) + 5)
    ∧ (20 < checkInterval →
      computeTimeout sampleDuration checkInterval = checkInterval - 5) := by
  unfold computeTimeout
  constructor <;> intro h
  · rw [if_neg (by omega)]
  · rw [if_pos (by omega)]

/-- C9 amended witness: both branches at concrete configurations. -/
theorem c9_amended_witness :
    ((10:ℤ) ≤ 20 ∧ computeTimeout 10 10 = 15)
    ∧ ((20:ℤ) < 30 ∧ computeTimeout 10 30 = 25) := by
  refine ⟨⟨by norm_num, ?_⟩, by norm_num, (c9_amended 10 30).2 (by norm_num)⟩
  rw [(c9_amended 10 10).1 (by norm_num)]
  norm_num

/-- `mapSet` preserves key uniqueness. -/
theorem mapSet_keys_nodup {α : Type} (m : List (String × α)) (k : String) (v : α)
    (h : (m.map Prod.fst).Nodup) : ((mapSet m k v).map Prod.fst).Nodup := by
  unfold mapSet
  split_ifs with hmem
  · have hkeys : (m.map (fun q => if q.1 == k then (k, v) else q)).map Prod.fst =
        m.map Prod.fst := by
      rw [List.map_map]
      apply List.map_congr_left
      intro q _
      by_cases hq : q.1 = k
      · simp [hq]
      · simp [hq]
    rw [hkeys]; exact h
  · rw [List.map_append]
    rw [List.nodup_append]
    refine ⟨h, List.nodup_singleton _, ?_⟩
    intro x hx
    rw [List.mem_map] at hx
    obtain ⟨q, hq, rfl⟩ := hx
    simp only [List.map_cons, List.map_nil, List.mem_singleton]
    intro hcontra
    apply hmem
    rw [List.any_eq_true]
    exact ⟨q, hq, by simp [hcontra]⟩

/-- After `m[k] = v`, the entries under key `k` are exactly `[(k, v)]`
(given unique keys): the previous binding is gone. -/
theorem mapSet_filter_self {α : Type} (m : List (String × α)) (k : String) (v : α)
    (h : (m.map Prod.fst).Nodup) :
    (mapSet m k v).filter (fun q => q.1 == k) = [(k, v)] := by
  induction m with
  | nil => simp [mapSet]
  | cons q m ih =>
    rw [List.map_cons, List.nodup_cons] at h
    by_cases hq : q.1 = k
    · have hany : ((q :: m).any fun q' => q'.1 == k) = true := by
        simp [List.any_cons, hq]
      have hknotin : k ∉ m.map Prod.fst := hq ▸ h.1
      have hrest : (m.map (fun q' => if q'.1 == k then (k, v) else q')).filter
          (fun q' => q'.1 == k) = [] := by
        rw [List.filter_eq_nil_iff]
        intro x hx
        rw [List.mem_map] at hx
        obtain ⟨q', hq', rfl⟩ := hx
        have hne : q'.1 ≠ k := fun hc => hknotin (hc ▸ List.mem_map_of_mem Prod.fst hq')
        simp [hne]
      simp only [mapSet, hany, if_true, List.map_cons, List.filter_cons]
      rw [if_pos (by simp [hq])]
      rw [if_pos (by simp [hq])]
      rw [hrest]
    · by_cases hany : (m.any fun q' => q'.1 == k) = true
      · have hany2 : ((q :: m).any fun q' => q'.1 == k) = true := by
          simp [List.any_cons, hany]
        have hm : mapSet m k v = m.map (fun q' => if q'.1 == k then (k, v) else q') := by
          rw [mapSet, if_pos hany]
        simp only [mapSet, hany2, if_true, List.map_cons, List.filter_cons]
        rw [if_neg (by simp [hq])]
        rw [← hm]
        exact ih h.2
      · have hany2 : ((q :: m).any fun q' => q'.1 == k) = false := by
          simp only [List.any_cons, Bool.or_eq_false_iff]
          exact ⟨beq_eq_false_iff_ne.mpr hq, Bool.eq_false_iff.mpr hany⟩
        have hrest : m.filter (fun q' => q'.1 == k) = [] := by
          rw [List.filter_eq_nil_iff]
          intro x hx hc
          apply hany
          rw [List.any_eq_true]
          exact ⟨x, hx, hc⟩
        simp only [mapSet, hany2, Bool.false_eq_true, if_false, List.cons_append,
          List.filter_cons]
        rw [if_neg (by simp [hq])]
        rw [List.filter_append, hrest]
        simp

/-- C10: two configured entries mapping to the same
`(project, lower-cased line_role, URL)` triple — regardless of their ids
and tag maps — leave exactly one checker under that key after both
registrations: the one built from the second entry. -/
theorem c10_duplicate_key_replaces (sch : Scheduler) (p g1 g2 : String)
    (e1 e2 : StreamConfig)
    (hnd : (sch.checkers.map Prod.fst).Nodup)
    (hg : g1.toLower = g2.toLower) (hu : e1.url = e2.url) :
    ((registerEntry (registerEntry sch p g1 e1) p g2 e2).checkers.filter
        (fun q => q.1 == checkerKey p g2.toLower e2.url)) =
      [(checkerKey p g2.toLower e2.url,
        newStreamChecker e2.id e2.url p g2.toLower (buildTags p g2.toLower e2))] := by
  have hnd1 : (((registerEntry sch p g1 e1).checkers).map Prod.fst).Nodup := by
    unfold registerEntry addStream
    exact mapSet_keys_nodup _ _ _ hnd
  exact mapSet_filter_self _ _ _ hnd1

/-- C10 witness: an empty scheduler, the group name "SOURCE" twice, a
shared URL and two distinct stream ids and tag maps. -/
theorem c10_duplicate_key_replaces_witness :
    ((registerEntry (registerEntry (Scheduler.mk []) "G01" "SOURCE"
          ⟨"http://h/a.flv", "id1", "", []⟩) "G01" "SOURCE"
          ⟨"http://h/a.flv", "id2", "", [("biz", "food")]⟩).checkers.filter
        (fun q => q.1 == checkerKey "G01" ("SOURCE".toLower) "http://h/a.flv")) =
      [(checkerKey "G01" ("SOURCE".toLower) "http://h/a.flv",
        newStreamChecker "id2" "http://h/a.flv" "G01" ("SOURCE".toLower)
          (buildTags "G01" ("SOURCE".toLower)
            ⟨"http://h/a.flv", "id2", "", [("biz", "food")]⟩))] := by
  exact c10_duplicate_key_replaces (Scheduler.mk []) "G01" "SOURCE" "SOURCE"
    ⟨"http://h/a.flv", "id1", "", []⟩ ⟨"http://h/a.flv", "id2", "", [("biz", "food")]⟩
    (by simp) rfl rfl

end VideoExporter
